import Mathlib

/-!
Verification development for the spending-summary pipeline of the
data-extraction component (file src/data_processing/data_extractor.py).
The definitions below are a shallow embedding of that Python code:
amounts after pandas to_numeric coercion are modelled as Option values
over the rationals (none standing for NaN, which pandas sums skip),
tables carry flags recording which column names are present, and the
wall-clock date is an explicit argument.
-/

namespace DataExtractor

/-! ### Character and string utilities (Python lower, substring, ordering) -/

/-- Lowercase both characters and compare code points, mirroring nothing of
Python; this is plain code-point comparison used by Python string ordering. -/
def charsLe : List Char → List Char → Bool
  | [], _ => true
  | _ :: _, [] => false
  | a :: as, b :: bs =>
    if a.toNat < b.toNat then true
    else if b.toNat < a.toNat then false
    else charsLe as bs

/-- Code-point ordering on strings, as used by Python sorted and pandas
groupby key sorting. -/
def strLeB (s t : String) : Bool := charsLe s.data t.data

/-- Propositional form of the code-point string ordering. -/
def strLeRel (s t : String) : Prop := strLeB s t = true

instance : DecidableRel strLeRel := fun s t =>
  inferInstanceAs (Decidable (strLeB s t = true))

/-- ASCII lowercase of one character, the effect Python lower has on the
merchant and post strings handled by this code. -/
def charToLower (c : Char) : Char :=
  if 65 ≤ c.toNat && c.toNat ≤ 90 then Char.ofNat (c.toNat + 32) else c

/-- ASCII lowercase of a string. -/
def strToLower (s : String) : String := String.mk (s.data.map charToLower)

/-- Boolean check that the first list is a leading segment of the second. -/
def isPrefOf : List Char → List Char → Bool
  | [], _ => true
  | _ :: _, [] => false
  | a :: as, b :: bs => (a == b) && isPrefOf as bs

/-- Boolean check that the needle occurs contiguously inside the haystack. -/
def hasSub (needle : List Char) : List Char → Bool
  | [] => needle.isEmpty
  | c :: rest => isPrefOf needle (c :: rest) || hasSub needle rest

/-- Python substring membership: needle in haystack. -/
def strContainsSub (hay needle : String) : Bool := hasSub needle.data hay.data

/-- Model of the pandas mask str.lower().str.contains with na handled as
false: a missing type cell never matches. -/
def lowerContainsDebit : Option String → Bool
  | none => false
  | some s => strContainsSub (strToLower s) ("debit")

/-! ### Calendar dates, strftime, and timedelta subtraction -/

/-- Calendar date with civil-calendar month lengths. -/
structure Date where
  year : Nat
  month : Nat
  day : Nat
deriving DecidableEq

/-- Gregorian leap-year rule. -/
def isLeapYear (y : Nat) : Bool := (y % 4 == 0 && y % 100 != 0) || y % 400 == 0

/-- Number of days of a month in the civil calendar. -/
def daysInMonth (y m : Nat) : Nat :=
  if m == 2 then (if isLeapYear y then 29 else 28)
  else if m == 4 || m == 6 || m == 9 || m == 11 then 30
  else 31

/-- Previous calendar day, with month and year borrow. -/
def predDay : Date → Date
  | ⟨y, m, d⟩ =>
    if 2 ≤ d then ⟨y, m, d - 1⟩
    else if 2 ≤ m then ⟨y, m - 1, daysInMonth y (m - 1)⟩
    else ⟨y - 1, 12, 31⟩

/-- Python datetime minus timedelta of n days. -/
def subDays : Nat → Date → Date
  | 0, d => d
  | n + 1, d => subDays n (predDay d)

/-- Decimal digit character. -/
def digitChar (n : Nat) : Char :=
  match n with
  | 0 => '0' | 1 => '1' | 2 => '2' | 3 => '3' | 4 => '4'
  | 5 => '5' | 6 => '6' | 7 => '7' | 8 => '8' | _ => '9'

/-- Decimal digits of a natural number, with enough fuel for any year. -/
def natDigits : Nat → Nat → List Char
  | 0, _ => []
  | fuel + 1, n => if n < 10 then [digitChar n] else natDigits fuel (n / 10) ++ [digitChar (n % 10)]

/-- Decimal rendering of a natural number. -/
def natToStr (n : Nat) : String := String.mk (natDigits 10 n)

/-- Zero-padded two-digit rendering, as strftime uses for the month. -/
def pad2 (n : Nat) : String := if n < 10 then "0" ++ natToStr n else natToStr n

/-- Zero-padded four-digit rendering, as strftime uses for the year. -/
def pad4 (n : Nat) : String :=
  if n < 10 then "000" ++ natToStr n
  else if n < 100 then "00" ++ natToStr n
  else if n < 1000 then "0" ++ natToStr n
  else natToStr n

/-- Year-month key in y dash m form. -/
def ymKey (y m : Nat) : String := pad4 y ++ "-" ++ pad2 m

/-- Model of strftime with the year-month format applied to a date. -/
def monthKey : Date → String
  | ⟨y, m, _⟩ => ymKey y m

/-- Modelled from the spec: the key of the prior calendar month of a date,
which section 4.4 of the spec says the last-month lookup uses. -/
def priorCalendarMonthKey : Date → String
  | ⟨y, m, _⟩ => if 2 ≤ m then ymKey y (m - 1) else ymKey (y - 1) 12

/-- Modelled from the spec: the year and month of the prior calendar month
of a date, used to state when the 30-day step lands there. -/
def priorYearMonth : Date → Nat × Nat
  | ⟨y, m, _⟩ => if 2 ≤ m then (y, m - 1) else (y - 1, 12)

/-- Length of the calendar month right before the month of the given
year-month pair, used to describe when a 30-day step leaves the month. -/
def prevMonthLen (y m : Nat) : Nat :=
  if 2 ≤ m then daysInMonth y (m - 1) else 31

/-! ### Transaction tables after load, before normalization -/

/-- One bank transaction row: amount after numeric coercion where none is
NaN, transaction type cell where none is a missing value. -/
structure BankRow where
  date : Date
  amount : Option ℚ
  ttype : Option String
  receiver : String
deriving DecidableEq

/-- Bank transaction table; usdCol records whether the amount column is
named Amount (USD) rather than Amount ($), typeCol whether the
Transaction Type column exists. -/
structure BankTable where
  usdCol : Bool
  typeCol : Bool
  rows : List BankRow
deriving DecidableEq

/-- One credit-card transaction row. -/
structure CCRow where
  date : Date
  amount : Option ℚ
  ttype : Option String
  merchant : String
deriving DecidableEq

/-- Credit-card transaction table with the same column-name flags. -/
structure CCTable where
  usdCol : Bool
  typeCol : Bool
  rows : List CCRow
deriving DecidableEq

/-! ### Amount normalization performed by the extractor constructor -/

/-- Constructor normalization of one bank row: when the type column exists
and the type cell lower-cased contains debit, the amount is negated. -/
def normalizeBankRow (hasType : Bool) (r : BankRow) : BankRow :=
  if hasType && lowerContainsDebit r.ttype then
    { r with amount := r.amount.map (fun a => -a) }
  else r

/-- Constructor normalization of the bank table. -/
def normalizeBankTable (t : BankTable) : BankTable :=
  { t with rows := t.rows.map (normalizeBankRow t.typeCol) }

/-- Constructor normalization of one credit-card row: the very same
debit-contains rule is applied, not an unconditional negation. -/
def normalizeCCRow (hasType : Bool) (r : CCRow) : CCRow :=
  if hasType && lowerContainsDebit r.ttype then
    { r with amount := r.amount.map (fun a => -a) }
  else r

/-- Constructor normalization of the credit-card table. -/
def normalizeCCTable (t : CCTable) : CCTable :=
  { t with rows := t.rows.map (normalizeCCRow t.typeCol) }

/-! ### Merchant-keyword categorizer -/

/-- Fixed category to keyword-list table, in source insertion order. -/
def categoryTable : List (String × List String) :=
  [ ("dining", ["restaurant", "starbucks"]),
    ("shopping", ["amazon", "walmart", "costco", "best buy", "nike", "apple"]),
    ("entertainment", ["netflix", "spotify"]),
    ("travel", ["airline", "hotel", "airbnb", "uber"]),
    ("transportation", ["tesla", "supercharger"]),
    ("fitness", ["gym"]),
    ("insurance", ["insurance"]),
    ("investments", ["equity", "mutual funds"]),
    ("electronics", ["electronic", "gadgets"]),
    ("uncategorized", []) ]

/-- Keyword categorizer: lower-case the merchant, scan the table in order,
first matching category wins, uncategorized otherwise. -/
def categorizeTransaction (merchant : String) : String :=
  let m := strToLower merchant
  match categoryTable.find? (fun p => p.2.any (fun k => strContainsSub m k)) with
  | some p => p.1
  | none => "uncategorized"

/-! ### Aggregation helpers -/

/-- Value that a possibly-NaN cell contributes to a pandas sum. -/
def optVal (o : Option ℚ) : ℚ := o.getD 0

/-- Pandas column sum: NaN cells are skipped, an empty column sums to 0. -/
def sumOpt (l : List (Option ℚ)) : ℚ := (l.map optVal).sum

/-- Bank spend of the generated summary: the sum of the amounts over rows
whose transaction type equals Debit exactly and case-sensitively. -/
def bankSpendRows (rows : List BankRow) : ℚ :=
  sumOpt ((rows.filter (fun r => r.ttype == some ("Debit"))).map (fun r => r.amount))

/-- Per-row amount of the unified cross-source view for a bank row: the
amount for rows typed exactly Debit, literal zero for every other row. -/
def unifiedBankAmount (r : BankRow) : Option ℚ :=
  if r.ttype == some ("Debit") then r.amount else some 0

/-- One row of the unified cross-source view. -/
structure URow where
  date : Date
  amount : Option ℚ
  category : String
  key : String
deriving DecidableEq

/-- Unified view of the bank table, with the keyword category and the
unified per-row amount. -/
def bankUnified (t : BankTable) : List URow :=
  t.rows.map (fun r =>
    ⟨r.date, unifiedBankAmount r, categorizeTransaction r.receiver, r.receiver⟩)

/-- Unified view of the credit-card table: the raw signed amount is kept. -/
def ccUnified (t : CCTable) : List URow :=
  t.rows.map (fun r =>
    ⟨r.date, r.amount, categorizeTransaction r.merchant, r.merchant⟩)

/-- Distinct keys of a keyed column, for the groupby model. -/
def keyList (pairs : List (String × Option ℚ)) : List String :=
  (pairs.map Prod.fst).dedup

/-- Pandas groupby-sum model: distinct keys in sorted order, each paired
with the NaN-skipping sum of its group. -/
def groupbySum (pairs : List (String × Option ℚ)) : List (String × ℚ) :=
  (List.insertionSort strLeRel (keyList pairs)).map
    (fun k => (k, sumOpt ((pairs.filter (fun p => p.1 == k)).map Prod.snd)))

/-- Python dict get with default zero. -/
def lookupD (l : List (String × ℚ)) (k : String) : ℚ :=
  match l.find? (fun p => p.1 == k) with
  | some p => p.2
  | none => 0

/-- Python max with a value key over an association list: the first entry
with the maximal value, none for an empty list. -/
def maxByValue : List (String × ℚ) → Option String
  | [] => none
  | x :: xs => some ((xs.foldl (fun b p => if b.2 < p.2 then p else b) x).1)

/-- Ordering by descending signed amount used for the top-merchant ranking;
this mirrors pandas nlargest over the signed sums. -/
def spendDesc (p q : String × ℚ) : Prop := q.2 ≤ p.2

instance : DecidableRel spendDesc := fun p q =>
  inferInstanceAs (Decidable (q.2 ≤ p.2))

/-- Merchant-keyed pairs used by the top-merchant groupby: when the
credit-card table is nonempty, the combined frame has a Merchant column and
only credit-card rows carry it, so bank rows drop out; otherwise the
Receiver column of the bank rows is used. -/
def topPairs (bank : BankTable) (cc : CCTable) : List (String × Option ℚ) :=
  if cc.rows.isEmpty then bank.rows.map (fun r => (r.receiver, unifiedBankAmount r))
  else cc.rows.map (fun r => (r.merchant, r.amount))

/-! ### The spending summary -/

/-- Spending summary record, one field per key of the returned dict. The
average is an Option because the pandas mean of an all-NaN column is NaN. -/
structure Summary where
  total_spend : ℚ
  bank_spend : ℚ
  credit_card_spend : ℚ
  spending_by_category : List (String × ℚ)
  monthly_spending : List (String × ℚ)
  current_month_spend : ℚ
  last_month_spend : ℚ
  month_over_month_change : ℚ
  max_spending_category : Option String
  average_transaction_amount : Option ℚ
  top_merchants_by_spend : List (String × ℚ)
deriving DecidableEq

/-- The all-zero fallback summary, produced both by the no-transactions
branch and by the exception handler of get_spending_summary. -/
def zeroSummary : Summary :=
  { total_spend := 0
    bank_spend := 0
    credit_card_spend := 0
    spending_by_category := []
    monthly_spending := []
    current_month_spend := 0
    last_month_spend := 0
    month_over_month_change := 0
    max_spending_category := none
    average_transaction_amount := some 0
    top_merchants_by_spend := [] }

/-- Column of non-NaN unified amounts, whose mean pandas takes for the
average transaction amount. -/
def meanVals (unified : List URow) : List ℚ := unified.filterMap (fun u => u.amount)

/-- Summary built on the branch where at least one source is nonempty,
mirroring lines 107 to 199 of the source. -/
def mkSummary (bank : BankTable) (cc : CCTable) (now : Date) : Summary :=
  let bankSpend := bankSpendRows bank.rows
  let ccSpend := sumOpt (cc.rows.map (fun r => r.amount))
  let unified := bankUnified bank ++ ccUnified cc
  let byCat := groupbySum (unified.map (fun u => (u.category, u.amount)))
  let monthly := groupbySum (unified.map (fun u => (monthKey u.date, u.amount)))
  let cur := lookupD monthly (monthKey now)
  let last := lookupD monthly (monthKey (subDays 30 now))
  let vals := meanVals unified
  { total_spend := bankSpend + ccSpend
    bank_spend := bankSpend
    credit_card_spend := ccSpend
    spending_by_category := byCat
    monthly_spending := monthly
    current_month_spend := cur
    last_month_spend := last
    month_over_month_change := if last ≠ 0 then (cur - last) / last * 100 else 0
    max_spending_category := maxByValue byCat
    average_transaction_amount :=
      if vals.isEmpty then none else some (vals.sum / (vals.length : ℚ))
    top_merchants_by_spend :=
      (List.insertionSort spendDesc (groupbySum (topPairs bank cc))).take 5 }

/-- Internal body of get_spending_summary: the column accesses that can
raise a pandas KeyError are modelled as explicit error results. -/
def generateSpendingSummary (bank : BankTable) (cc : CCTable) (now : Date) :
    Except String Summary :=
  if !bank.rows.isEmpty && !bank.usdCol then
    Except.error ("KeyError on the bank amount column")
  else if !bank.rows.isEmpty && !bank.typeCol then
    Except.error ("KeyError on the bank transaction type column")
  else if !cc.rows.isEmpty && cc.usdCol then
    Except.error ("KeyError on the credit-card amount column")
  else if (bankUnified bank ++ ccUnified cc).isEmpty then Except.ok zeroSummary
  else Except.ok (mkSummary bank cc now)

/-- Public entry point: constructor normalization followed by the guarded
summary generation; any internal error is swallowed and replaced by the
all-zero summary. -/
def getSpendingSummary (bank : BankTable) (cc : CCTable) (now : Date) : Summary :=
  match generateSpendingSummary (normalizeBankTable bank) (normalizeCCTable cc) now with
  | Except.ok s => s
  | Except.error _ => zeroSummary

/-! ### Interest inference from social posts -/

/-- Fixed interest-keyword table of get_user_interests, insertion order. -/
def interestKeywordTable : List (String × List String) :=
  [ ("travel", ["travel", "vacation", "trip", "holiday", "explore", "adventure", "beach", "ocean", "waves"]),
    ("technology", ["tech", "gadget", "computer", "phone", "coding", "programming", "ai", "innovation"]),
    ("food", ["restaurant", "dining", "food", "cuisine", "cooking", "recipe", "pasta", "dinner"]),
    ("shopping", ["shopping", "store", "mall", "buy", "purchase", "deal", "wardrobe", "fashion"]),
    ("entertainment", ["movie", "music", "concert", "show", "theater", "performance", "documentary"]),
    ("fitness", ["gym", "workout", "fitness", "exercise", "sports", "training", "swimming", "deadlifts"]),
    ("education", ["study", "course", "learn", "education", "university", "college", "career"]),
    ("finance", ["investing", "finance", "stock", "market", "savings", "investments", "financial"]),
    ("outdoor", ["hiking", "camping", "nature", "park", "outdoor", "adventure", "beach", "ocean"]),
    ("lifestyle", ["weekend", "relax", "vibes", "life", "journey", "experience"]) ]

/-- Interest buckets matched by one post body. -/
def postTags (content : String) : List String :=
  (interestKeywordTable.filter
    (fun p => p.2.any (fun k => strContainsSub (strToLower content) k))).map Prod.fst

/-- Interest buckets matched by one cell of the post column; non-string
cells are skipped by the isinstance check. -/
def postTagsOpt : Option String → List String
  | some c => postTags c
  | none => []

/-- All bucket hits over the post column, in scan order with repetitions. -/
def collectTags (posts : List (Option String)) : List String :=
  posts.foldr (fun o acc => postTagsOpt o ++ acc) []

/-- Model of get_user_interests: the set of matched buckets as a sorted
deduplicated list. -/
def getUserInterests (posts : List (Option String)) : List String :=
  List.insertionSort strLeRel (collectTags posts).dedup

/-- Modelled from the spec: bank or credit-card spend as the sum of the
magnitudes of the negative signed amounts of a source, the reading that
section 4.4 of the spec gives for bank_spend and credit_card_spend. -/
def sumMagNegative (amounts : List (Option ℚ)) : ℚ :=
  (amounts.filterMap id).foldr (fun a acc => (if a < 0 then -a else 0) + acc) 0

/-! ### Order facts for the two sorting relations -/

theorem charsLe_total : ∀ (as bs : List Char), charsLe as bs = true ∨ charsLe bs as = true
  | [], _ => Or.inl rfl
  | _ :: _, [] => Or.inr rfl
  | a :: as, b :: bs => by
    unfold charsLe
    by_cases h1 : a.toNat < b.toNat
    · left
      rw [if_pos h1]
    · by_cases h2 : b.toNat < a.toNat
      · right
        rw [if_pos h2]
      · rw [if_neg h1, if_neg h2, if_neg h2, if_neg h1]
        exact charsLe_total as bs

theorem charsLe_trans : ∀ {as bs cs : List Char},
    charsLe as bs = true → charsLe bs cs = true → charsLe as cs = true
  | [], _, _, _, _ => rfl
  | _ :: _, [], _, h1, _ => by simp [charsLe] at h1
  | _ :: _, _ :: _, [], _, h2 => by simp [charsLe] at h2
  | a :: as, b :: bs, c :: cs, h1, h2 => by
    unfold charsLe at h1 h2 ⊢
    by_cases hab : a.toNat < b.toNat
    · by_cases hbc : b.toNat < c.toNat
      · rw [if_pos (by omega : a.toNat < c.toNat)]
      · rw [if_neg hbc] at h2
        by_cases hcb : c.toNat < b.toNat
        · rw [if_pos hcb] at h2
          simp at h2
        · rw [if_pos (by omega : a.toNat < c.toNat)]
    · rw [if_neg hab] at h1
      by_cases hba : b.toNat < a.toNat
      · rw [if_pos hba] at h1
        simp at h1
      · rw [if_neg hba] at h1
        by_cases hbc : b.toNat < c.toNat
        · rw [if_pos (by omega : a.toNat < c.toNat)]
        · rw [if_neg hbc] at h2
          by_cases hcb : c.toNat < b.toNat
          · rw [if_pos hcb] at h2
            simp at h2
          · rw [if_neg hcb] at h2
            rw [if_neg (by omega : ¬ a.toNat < c.toNat),
              if_neg (by omega : ¬ c.toNat < a.toNat)]
            exact charsLe_trans h1 h2

instance : IsTotal String strLeRel := ⟨fun s t => charsLe_total s.data t.data⟩

instance : IsTrans String strLeRel := ⟨fun _ _ _ h1 h2 => charsLe_trans h1 h2⟩

instance : IsTotal (String × ℚ) spendDesc := ⟨fun p q => le_total q.2 p.2⟩

instance : IsTrans (String × ℚ) spendDesc := ⟨fun _ _ _ h1 h2 => le_trans h2 h1⟩

/-! ### Sum and groupby lemmas -/

theorem sumOpt_nil : sumOpt [] = 0 := rfl

theorem sumOpt_cons (o : Option ℚ) (l : List (Option ℚ)) :
    sumOpt (o :: l) = optVal o + sumOpt l := by
  simp [sumOpt]

theorem sumOpt_append (l1 l2 : List (Option ℚ)) :
    sumOpt (l1 ++ l2) = sumOpt l1 + sumOpt l2 := by
  simp [sumOpt]

theorem map_sum_add (K : List String) (f g : String → ℚ) :
    (K.map (fun k => f k + g k)).sum = (K.map f).sum + (K.map g).sum := by
  induction K with
  | nil => simp
  | cons k ks ih =>
    simp only [List.map_cons, List.sum_cons, ih]
    ring

theorem sum_if_single (K : List String) (a : String) (c : ℚ)
    (hnd : K.Nodup) (ha : a ∈ K) :
    (K.map (fun k => if a == k then c else 0)).sum = c := by
  induction K with
  | nil => cases ha
  | cons k ks ih =>
    rcases List.mem_cons.mp ha with h | h
    · subst h
      simp only [List.map_cons, List.sum_cons, beq_self_eq_true, if_pos]
      have hz : ∀ x ∈ ks.map (fun k2 => if a == k2 then c else 0), x = 0 := by
        intro x hx
        rcases List.mem_map.mp hx with ⟨k2, hk2, rfl⟩
        have hne : ¬ a = k2 := fun h2 => (List.nodup_cons.mp hnd).1 (h2 ▸ hk2)
        simp [hne]
      rw [List.sum_eq_zero hz, add_zero]
    · have hk : k ∉ ks := (List.nodup_cons.mp hnd).1
      have hne : ¬ a = k := fun h2 => hk (h2 ▸ h)
      simp only [List.map_cons, List.sum_cons]
      rw [if_neg (by simpa using hne), zero_add]
      exact ih (List.nodup_cons.mp hnd).2 h

theorem sum_over_keys (pairs : List (String × Option ℚ)) (K : List String)
    (hnd : K.Nodup) (hcov : ∀ p ∈ pairs, p.1 ∈ K) :
    (K.map (fun k => sumOpt ((pairs.filter (fun p => p.1 == k)).map Prod.snd))).sum
      = sumOpt (pairs.map Prod.snd) := by
  induction pairs with
  | nil =>
    rw [List.sum_eq_zero]
    · rfl
    · intro x hx
      rcases List.mem_map.mp hx with ⟨k, _, rfl⟩
      rfl
  | cons p ps ih =>
    have step : (fun k => sumOpt (((p :: ps).filter (fun q => q.1 == k)).map Prod.snd))
        = (fun k => (if p.1 == k then optVal p.2 else 0)
            + sumOpt ((ps.filter (fun q => q.1 == k)).map Prod.snd)) := by
      funext k
      by_cases h : (p.1 == k) = true
      · simp [List.filter_cons, h, sumOpt_cons]
      · simp [List.filter_cons, h]
    rw [step, map_sum_add,
      sum_if_single K p.1 (optVal p.2) hnd (hcov p (List.mem_cons_self p ps)),
      ih (fun q hq => hcov q (List.mem_cons_of_mem p hq)),
      List.map_cons, sumOpt_cons]

theorem sum_groupbySum (pairs : List (String × Option ℚ)) :
    ((groupbySum pairs).map Prod.snd).sum = sumOpt (pairs.map Prod.snd) := by
  unfold groupbySum
  rw [List.map_map]
  have hperm : List.Perm (List.insertionSort strLeRel (keyList pairs)) (keyList pairs) :=
    List.perm_insertionSort strLeRel (keyList pairs)
  rw [(hperm.map (Prod.snd ∘ fun k =>
    (k, sumOpt ((pairs.filter (fun p => p.1 == k)).map Prod.snd)))).sum_eq]
  exact sum_over_keys pairs (keyList pairs) (List.nodup_dedup _)
    (fun p hp => List.mem_dedup.mpr (List.mem_map_of_mem Prod.fst hp))

theorem groupbySum_keys (pairs : List (String × Option ℚ)) :
    (groupbySum pairs).map Prod.fst = List.insertionSort strLeRel (keyList pairs) := by
  unfold groupbySum
  rw [List.map_map]
  exact List.map_id _

theorem groupbySum_keys_nodup (pairs : List (String × Option ℚ)) :
    ((groupbySum pairs).map Prod.fst).Nodup := by
  rw [groupbySum_keys]
  exact ((List.perm_insertionSort strLeRel (keyList pairs)).nodup_iff).mpr
    (List.nodup_dedup _)

/-! ### Normalization and unified-view lemmas -/

theorem normalizeBankRow_ttype (b : Bool) (r : BankRow) :
    (normalizeBankRow b r).ttype = r.ttype := by
  unfold normalizeBankRow
  split <;> rfl

theorem bankSpendRows_cons (r : BankRow) (rs : List BankRow) :
    bankSpendRows (r :: rs)
      = (if (r.ttype == some ("Debit")) = true then optVal r.amount else 0)
        + bankSpendRows rs := by
  unfold bankSpendRows
  rw [List.filter_cons]
  by_cases h : (r.ttype == some ("Debit")) = true
  · simp [h, sumOpt_cons]
  · simp [h]

theorem sumOpt_unified_bank (rows : List BankRow) :
    sumOpt (rows.map unifiedBankAmount) = bankSpendRows rows := by
  induction rows with
  | nil => rfl
  | cons r rs ih =>
    rw [List.map_cons, sumOpt_cons, ih, bankSpendRows_cons]
    congr 1
    unfold unifiedBankAmount
    by_cases h : (r.ttype == some ("Debit")) = true
    · rw [if_pos h, if_pos h]
    · rw [if_neg h, if_neg h]
      rfl

theorem mk_byCat_sum (B : BankTable) (C : CCTable) (now : Date) :
    ((mkSummary B C now).spending_by_category.map Prod.snd).sum
      = (mkSummary B C now).total_spend := by
  show ((groupbySum ((bankUnified B ++ ccUnified C).map
      (fun u => (u.category, u.amount)))).map Prod.snd).sum
    = bankSpendRows B.rows + sumOpt (C.rows.map (fun r => r.amount))
  rw [sum_groupbySum, List.map_map]
  show sumOpt ((bankUnified B ++ ccUnified C).map (fun u => u.amount)) = _
  rw [List.map_append, sumOpt_append]
  have hbank : (bankUnified B).map (fun u => u.amount) = B.rows.map unifiedBankAmount := by
    unfold bankUnified
    rw [List.map_map]
    rfl
  have hcc : (ccUnified C).map (fun u => u.amount) = C.rows.map (fun r => r.amount) := by
    unfold ccUnified
    rw [List.map_map]
    rfl
  rw [hbank, hcc, sumOpt_unified_bank]

/-! ### Case analysis of the guarded entry point -/

theorem getSummary_cases (b : BankTable) (c : CCTable) (now : Date) :
    getSpendingSummary b c now = zeroSummary ∨
      getSpendingSummary b c now
        = mkSummary (normalizeBankTable b) (normalizeCCTable c) now := by
  unfold getSpendingSummary
  cases hg : generateSpendingSummary (normalizeBankTable b) (normalizeCCTable c) now with
  | error e => exact Or.inl rfl
  | ok s =>
    unfold generateSpendingSummary at hg
    split at hg
    · exact absurd hg (by simp)
    · split at hg
      · exact absurd hg (by simp)
      · split at hg
        · exact absurd hg (by simp)
        · split at hg
          · injection hg with h
            exact Or.inl h.symm
          · injection hg with h
            exact Or.inr h.symm

theorem getSummary_of_error (b : BankTable) (c : CCTable) (now : Date) (e : String)
    (he : generateSpendingSummary (normalizeBankTable b) (normalizeCCTable c) now
      = Except.error e) :
    getSpendingSummary b c now = zeroSummary := by
  unfold getSpendingSummary
  rw [he]

/-! ### Categorizer fallback lemma -/

theorem categorize_no_match (merch : String)
    (h : (categoryTable.all (fun p => p.2.all
      (fun k => !(strContainsSub (strToLower merch) k)))) = true) :
    categorizeTransaction merch = "uncategorized" := by
  show (match List.find? (fun p => p.2.any (fun k => strContainsSub (strToLower merch) k))
      categoryTable with
    | some p => p.1
    | none => "uncategorized") = "uncategorized"
  rw [List.find?_eq_none.mpr]
  intro p hp
  have hall := (List.all_eq_true.mp h) p hp
  simp only [List.all_eq_true, Bool.not_eq_eq_eq_not, Bool.not_true] at hall
  simp only [List.any_eq_true, Bool.not_eq_true]
  rintro ⟨k, hk, hks⟩
  rw [hall k hk] at hks
  cases hks

/-! ### Calendar lemmas for the 30-day step -/

theorem subDays_add (a b : Nat) (d : Date) :
    subDays (a + b) d = subDays b (subDays a d) := by
  induction a generalizing d with
  | zero =>
    rw [Nat.zero_add]
    rfl
  | succ n ih =>
    rw [Nat.succ_add]
    show subDays (n + b) (predDay d) = _
    rw [ih]
    rfl

theorem subDays_in_month (n y m d : Nat) (h : n < d) :
    subDays n ⟨y, m, d⟩ = ⟨y, m, d - n⟩ := by
  induction n generalizing d with
  | zero => simp [subDays]
  | succ k ih =>
    show subDays k (predDay ⟨y, m, d⟩) = _
    have hpd : predDay ⟨y, m, d⟩ = ⟨y, m, d - 1⟩ := by
      simp only [predDay]
      rw [if_pos (by omega : 2 ≤ d)]
    rw [hpd, ih (d - 1) (by omega)]
    have : d - 1 - k = d - (k + 1) := by omega
    rw [this]

theorem prior_month_step_date (y m k : Nat) (hm : 1 ≤ m) (hk : k < prevMonthLen y m) :
    subDays (k + 1) ⟨y, m, 1⟩
      = if 2 ≤ m then ⟨y, m - 1, daysInMonth y (m - 1) - k⟩ else ⟨y - 1, 12, 31 - k⟩ := by
  show subDays k (predDay ⟨y, m, 1⟩) = _
  by_cases h2 : 2 ≤ m
  · have hpd : predDay ⟨y, m, 1⟩ = ⟨y, m - 1, daysInMonth y (m - 1)⟩ := by
      simp [predDay, h2]
    have hk2 : k < daysInMonth y (m - 1) := by
      unfold prevMonthLen at hk
      rw [if_pos h2] at hk
      exact hk
    rw [hpd, subDays_in_month k y (m - 1) (daysInMonth y (m - 1)) hk2, if_pos h2]
  · have hm1 : m = 1 := by omega
    subst hm1
    have hpd : predDay ⟨y, 1, 1⟩ = ⟨y - 1, 12, 31⟩ := by
      simp [predDay]
    have hk2 : k < 31 := by
      unfold prevMonthLen at hk
      rw [if_neg (by omega)] at hk
      exact hk
    rw [hpd, subDays_in_month k (y - 1) 12 31 hk2, if_neg h2]

theorem subDays30_land (y m d : Nat) (hm : 1 ≤ m) (hd1 : 1 ≤ d) (hd30 : d ≤ 30)
    (hlen : 31 - prevMonthLen y m ≤ d) :
    subDays 30 ⟨y, m, d⟩
      = if 2 ≤ m then ⟨y, m - 1, daysInMonth y (m - 1) - (30 - d)⟩
        else ⟨y - 1, 12, 31 - (30 - d)⟩ := by
  have key : subDays 30 ⟨y, m, d⟩ = subDays ((30 - d) + 1) ⟨y, m, 1⟩ := by
    have h30 : (30 : Nat) = (d - 1) + ((30 - d) + 1) := by omega
    conv_lhs => rw [h30]
    rw [subDays_add, subDays_in_month (d - 1) y m d (by omega)]
    have hone : d - (d - 1) = 1 := by omega
    rw [hone]
  rw [key, prior_month_step_date y m (30 - d) hm (by omega)]

theorem subDays30_prior_month (y m d : Nat) (hm : 1 ≤ m) (hd1 : 1 ≤ d) (hd30 : d ≤ 30)
    (hlen : 31 - prevMonthLen y m ≤ d) :
    monthKey (subDays 30 ⟨y, m, d⟩) = priorCalendarMonthKey ⟨y, m, d⟩ := by
  rw [subDays30_land y m d hm hd1 hd30 hlen]
  by_cases h2 : 2 ≤ m
  · rw [if_pos h2]
    simp only [monthKey, priorCalendarMonthKey]
    rw [if_pos h2]
  · rw [if_neg h2]
    simp only [monthKey, priorCalendarMonthKey]
    rw [if_neg h2]

theorem daysInMonth_ge (y m : Nat) : 28 ≤ daysInMonth y m := by
  unfold daysInMonth
  split
  · split <;> omega
  · split <;> omega

theorem month_eq_two_of_short (y m : Nat) (h : daysInMonth y m ≤ 29) : m = 2 := by
  by_contra hne
  unfold daysInMonth at h
  rw [if_neg (by simp [hne])] at h
  split at h <;> omega

theorem subDays30_march_early (y d : Nat) (hd1 : 1 ≤ d)
    (hdL : d + daysInMonth y 2 ≤ 30) :
    subDays 30 ⟨y, 3, d⟩ = ⟨y, 1, 31 - (30 - d - daysInMonth y 2)⟩ := by
  have hL : 28 ≤ daysInMonth y 2 := daysInMonth_ge y 2
  have h1 : subDays (d - 1) ⟨y, 3, d⟩ = ⟨y, 3, 1⟩ := by
    rw [subDays_in_month (d - 1) y 3 d (by omega)]
    have hone : d - (d - 1) = 1 := by omega
    rw [hone]
  have h2 : subDays 1 ⟨y, 3, 1⟩ = ⟨y, 2, daysInMonth y 2⟩ := by
    show predDay ⟨y, 3, 1⟩ = ⟨y, 2, daysInMonth y 2⟩
    simp [predDay]
  have h3 : subDays (daysInMonth y 2 - 1) ⟨y, 2, daysInMonth y 2⟩ = ⟨y, 2, 1⟩ := by
    rw [subDays_in_month (daysInMonth y 2 - 1) y 2 (daysInMonth y 2) (by omega)]
    have hone : daysInMonth y 2 - (daysInMonth y 2 - 1) = 1 := by omega
    rw [hone]
  have h4 : subDays 1 ⟨y, 2, 1⟩ = ⟨y, 1, 31⟩ := by
    show predDay ⟨y, 2, 1⟩ = ⟨y, 1, 31⟩
    simp [predDay, daysInMonth]
  have h5 : subDays (30 - d - daysInMonth y 2) ⟨y, 1, 31⟩
      = ⟨y, 1, 31 - (30 - d - daysInMonth y 2)⟩ :=
    subDays_in_month (30 - d - daysInMonth y 2) y 1 31 (by omega)
  have hsplit : (30 : Nat)
      = (d - 1) + (1 + ((daysInMonth y 2 - 1) + (1 + (30 - d - daysInMonth y 2)))) := by
    omega
  conv_lhs => rw [hsplit]
  rw [subDays_add, h1, subDays_add, h2, subDays_add, h3, subDays_add, h4, h5]

theorem subDays30_pair_iff (y m d : Nat) (hm : 1 ≤ m) (hd1 : 1 ≤ d) :
    (((subDays 30 ⟨y, m, d⟩).year, (subDays 30 ⟨y, m, d⟩).month) = priorYearMonth ⟨y, m, d⟩)
      ↔ (31 - prevMonthLen y m ≤ d ∧ d ≤ 30) := by
  constructor
  · intro hpair
    by_contra hrange
    rw [not_and_or] at hrange
    rcases hrange with hlo | hhi
    · have hLle : prevMonthLen y m ≤ 29 := by omega
      have h2 : 2 ≤ m := by
        by_contra hc
        have hm1 : m = 1 := by omega
        subst hm1
        unfold prevMonthLen at hLle
        rw [if_neg (by omega)] at hLle
        omega
      have hLd : prevMonthLen y m = daysInMonth y (m - 1) := by
        unfold prevMonthLen
        rw [if_pos h2]
      have hm2 : m - 1 = 2 := month_eq_two_of_short y (m - 1) (by omega)
      have hm3 : m = 3 := by omega
      subst hm3
      have hLd2 : prevMonthLen y 3 = daysInMonth y 2 := hLd
      rw [hLd2] at hlo
      have hdL : d + daysInMonth y 2 ≤ 30 := by omega
      rw [subDays30_march_early y d hd1 hdL] at hpair
      simp [priorYearMonth, Prod.mk.injEq] at hpair
    · have hsub : subDays 30 ⟨y, m, d⟩ = ⟨y, m, d - 30⟩ :=
        subDays_in_month 30 y m d (by omega)
      rw [hsub] at hpair
      by_cases h2 : 2 ≤ m
      · simp only [priorYearMonth, if_pos h2, Prod.mk.injEq] at hpair
        omega
      · simp only [priorYearMonth, if_neg h2, Prod.mk.injEq] at hpair
        omega
  · rintro ⟨hlen, hd30⟩
    rw [subDays30_land y m d hm hd1 hd30 hlen]
    by_cases h2 : 2 ≤ m
    · rw [if_pos h2]
      simp [priorYearMonth, h2]
    · rw [if_neg h2]
      simp [priorYearMonth, h2]

theorem subDays30_day31 (y m : Nat) :
    monthKey (subDays 30 ⟨y, m, 31⟩) = monthKey ⟨y, m, 31⟩ := by
  rw [subDays_in_month 30 y m 31 (by omega)]
  rfl

/-! ### Further helper lemmas for the claims -/

theorem bankSpendRows_nonpos (rows : List BankRow)
    (h : ∀ r ∈ rows, 0 ≤ optVal r.amount) :
    bankSpendRows (rows.map (normalizeBankRow true)) ≤ 0 := by
  induction rows with
  | nil => exact le_refl 0
  | cons r rs ih =>
    rw [List.map_cons, bankSpendRows_cons]
    have htail := ih (fun x hx => h x (List.mem_cons_of_mem r hx))
    have hhead : (if ((normalizeBankRow true r).ttype == some ("Debit")) = true
        then optVal (normalizeBankRow true r).amount else 0) ≤ 0 := by
      by_cases hd : ((normalizeBankRow true r).ttype == some ("Debit")) = true
      · rw [if_pos hd]
        have hrt : r.ttype = some ("Debit") := by
          rw [normalizeBankRow_ttype true r] at hd
          exact beq_iff_eq.mp hd
        have hcond : (true && lowerContainsDebit r.ttype) = true := by
          rw [hrt]
          decide
        have hnorm : normalizeBankRow true r
            = { r with amount := r.amount.map (fun a => -a) } := by
          unfold normalizeBankRow
          rw [if_pos hcond]
        rw [hnorm]
        show optVal (r.amount.map (fun a => -a)) ≤ 0
        cases ha : r.amount with
        | none => exact le_refl 0
        | some a =>
          have h0 := h r (List.mem_cons_self r rs)
          rw [ha] at h0
          show -a ≤ 0
          exact neg_nonpos.mpr h0
      · rw [if_neg hd]
    exact add_nonpos hhead htail

theorem collectTags_cons (o : Option String) (ps : List (Option String)) :
    collectTags (o :: ps) = postTagsOpt o ++ collectTags ps := rfl

theorem collectTags_append (A B : List (Option String)) :
    collectTags (A ++ B) = collectTags A ++ collectTags B := by
  induction A with
  | nil => rfl
  | cons o ps ih =>
    rw [List.cons_append, collectTags_cons, collectTags_cons, ih, List.append_assoc]

/-! ### Claim theorems -/

/-- Claim C1 counterexample: a credit-card row whose transaction type is
Credit keeps its positive raw amount through normalization, so not every
credit-card row has a non-positive canonical signed amount. -/
theorem c1_counterexample :
    (normalizeCCTable ⟨false, true,
        [⟨⟨2026, 1, 6⟩, some 30, some ("Credit"), "Amazon"⟩]⟩).rows.map (fun r => r.amount)
      = [some 30]
    ∧ ¬ ((30 : ℚ) ≤ 0) :=
  ⟨by with_unfolding_all decide, by norm_num⟩

/-- Claim C1 (amended): when the bank table has a type column and all raw
parseable amounts are non-negative, the sum of normalized amounts over rows
typed exactly Debit is non-positive; a credit-card row is negated to the
negative of its raw magnitude exactly when its type cell case-insensitively
contains debit, and otherwise keeps its raw non-negative amount. -/
theorem c1_sign_stability (t : BankTable) (rc : CCRow)
    (htc : t.typeCol = true)
    (hb : ∀ r ∈ t.rows, 0 ≤ optVal r.amount)
    (hc : 0 ≤ optVal rc.amount) :
    bankSpendRows (normalizeBankTable t).rows ≤ 0
    ∧ (lowerContainsDebit rc.ttype = true →
        (normalizeCCRow true rc).amount = rc.amount.map (fun a => -a)
        ∧ optVal (normalizeCCRow true rc).amount ≤ 0)
    ∧ (lowerContainsDebit rc.ttype = false →
        (normalizeCCRow true rc).amount = rc.amount
        ∧ 0 ≤ optVal (normalizeCCRow true rc).amount) := by
  refine ⟨?_, ?_, ?_⟩
  · show bankSpendRows (t.rows.map (normalizeBankRow t.typeCol)) ≤ 0
    rw [htc]
    exact bankSpendRows_nonpos t.rows hb
  · intro hdeb
    have hnorm : normalizeCCRow true rc
        = { rc with amount := rc.amount.map (fun a => -a) } := by
      unfold normalizeCCRow
      rw [if_pos (by rw [hdeb]; rfl)]
    rw [hnorm]
    refine ⟨rfl, ?_⟩
    show optVal (rc.amount.map (fun a => -a)) ≤ 0
    cases ha : rc.amount with
    | none => exact le_refl 0
    | some a =>
      rw [ha] at hc
      show -a ≤ 0
      exact neg_nonpos.mpr hc
  · intro hdeb
    have hnorm : normalizeCCRow true rc = rc := by
      unfold normalizeCCRow
      rw [if_neg (by rw [hdeb]; simp)]
    rw [hnorm]
    exact ⟨rfl, hc⟩

/-- Claim C1 witness: concrete one-row tables satisfying the hypotheses. -/
theorem c1_witness :
    (∀ r ∈ [(⟨⟨2026, 1, 5⟩, some 50, some ("Debit"), "Starbucks"⟩ : BankRow)],
      0 ≤ optVal r.amount)
    ∧ bankSpendRows (normalizeBankTable ⟨true, true,
        [⟨⟨2026, 1, 5⟩, some 50, some ("Debit"), "Starbucks"⟩]⟩).rows ≤ 0 :=
  ⟨by with_unfolding_all decide,
    (c1_sign_stability ⟨true, true, [⟨⟨2026, 1, 5⟩, some 50, some ("Debit"), "Starbucks"⟩]⟩
      ⟨⟨2026, 1, 6⟩, some 30, some ("Credit"), "Amazon"⟩ rfl
      (by with_unfolding_all decide) (by with_unfolding_all decide)).1⟩

/-- Claim C2 counterexample: on a one-debit-row bank table the summary field
bank_spend is the negative signed sum, not the sum of magnitudes of the
negative signed amounts that the claim describes. -/
theorem c2_counterexample :
    (getSpendingSummary ⟨true, true,
        [⟨⟨2026, 1, 10⟩, some 50, some ("Debit"), "Starbucks"⟩]⟩
        ⟨false, true, []⟩ ⟨2026, 1, 15⟩).bank_spend = -50
    ∧ sumMagNegative ((normalizeBankTable ⟨true, true,
        [⟨⟨2026, 1, 10⟩, some 50, some ("Debit"), "Starbucks"⟩]⟩).rows.map (fun r => r.amount))
      = 50
    ∧ ((-50 : ℚ)) ≠ 50 :=
  ⟨by with_unfolding_all decide, by with_unfolding_all decide, by norm_num⟩

/-- Claim C2 (amended): for every input the summary satisfies total_spend
equal to bank_spend plus credit_card_spend exactly, where the addends are
the signed sums of each source, and two empty tables give total_spend 0. -/
theorem c2_total_additivity :
    (∀ (b : BankTable) (c : CCTable) (now : Date),
      (getSpendingSummary b c now).total_spend
        = (getSpendingSummary b c now).bank_spend
          + (getSpendingSummary b c now).credit_card_spend)
    ∧ (getSpendingSummary ⟨true, true, []⟩ ⟨false, true, []⟩ ⟨2026, 1, 15⟩).total_spend = 0 := by
  constructor
  · intro b c now
    rcases getSummary_cases b c now with h | h <;> rw [h]
    · show (0 : ℚ) = 0 + 0
      norm_num
    · rfl
  · rfl

/-- Claim C3 counterexample: a single bank debit of 50 yields a
spending_by_category value of minus 50, so the values are not all
non-negative. -/
theorem c3_counterexample :
    (getSpendingSummary ⟨true, true,
        [⟨⟨2026, 1, 10⟩, some 50, some ("Debit"), "Starbucks"⟩]⟩
        ⟨false, true, []⟩ ⟨2026, 1, 15⟩).spending_by_category = [(("dining"), (-50 : ℚ))]
    ∧ ¬ (0 ≤ (-50 : ℚ)) :=
  ⟨by with_unfolding_all decide, by norm_num⟩

/-- Claim C3 (amended): for every input the spending_by_category values sum
exactly to total_spend, and a merchant matching no keyword falls into the
uncategorized bucket; the values are signed, not non-negative magnitudes. -/
theorem c3_category_sum (b : BankTable) (c : CCTable) (now : Date) :
    ((getSpendingSummary b c now).spending_by_category.map Prod.snd).sum
      = (getSpendingSummary b c now).total_spend
    ∧ (∀ merch, (categoryTable.all (fun p => p.2.all
        (fun k => !(strContainsSub (strToLower merch) k)))) = true →
        categorizeTransaction merch = "uncategorized") := by
  constructor
  · rcases getSummary_cases b c now with h | h <;> rw [h]
    · rfl
    · exact mk_byCat_sum _ _ _
  · exact categorize_no_match

/-- Claim C3 witness: the hypotheses hold at a keywordless merchant and an
empty input pair. -/
theorem c3_witness :
    (categoryTable.all (fun p => p.2.all
        (fun k => !(strContainsSub (strToLower ("zzz")) k)))) = true
    ∧ categorizeTransaction ("zzz") = "uncategorized"
    ∧ ((getSpendingSummary ⟨true, true, []⟩ ⟨false, true, []⟩
        ⟨2026, 1, 15⟩).spending_by_category.map Prod.snd).sum
      = (getSpendingSummary ⟨true, true, []⟩ ⟨false, true, []⟩ ⟨2026, 1, 15⟩).total_spend :=
  ⟨by decide,
    (c3_category_sum ⟨true, true, []⟩ ⟨false, true, []⟩ ⟨2026, 1, 15⟩).2 ("zzz") (by decide),
    (c3_category_sum ⟨true, true, []⟩ ⟨false, true, []⟩ ⟨2026, 1, 15⟩).1⟩

/-- Claim C4: the keyword categorizer maps the three reference merchants to
dining, shopping and uncategorized; the dining entry beats the shopping
entry on a string matching both, and a merchant matching no keyword at all
is uncategorized. -/
theorem c4_keyword_categorizer :
    categorizeTransaction ("Starbucks Coffee #123") = "dining"
    ∧ categorizeTransaction ("AMAZON.COM*ABC123") = "shopping"
    ∧ categorizeTransaction ("UNKNOWN VENDOR XYZ") = "uncategorized"
    ∧ categorizeTransaction ("Apple Store Starbucks") = "dining"
    ∧ (∀ merch, (categoryTable.all (fun p => p.2.all
        (fun k => !(strContainsSub (strToLower merch) k)))) = true →
        categorizeTransaction merch = "uncategorized") :=
  ⟨by decide, by decide, by decide, by decide, categorize_no_match⟩

/-- Claim C4 witness: the no-match hypothesis holds at a concrete merchant. -/
theorem c4_witness :
    (categoryTable.all (fun p => p.2.all
        (fun k => !(strContainsSub (strToLower ("qqq")) k)))) = true
    ∧ categorizeTransaction ("qqq") = "uncategorized" :=
  ⟨by decide, c4_keyword_categorizer.2.2.2.2 ("qqq") (by decide)⟩

/-- Claim C5 counterexample: two credit-card debits of 30 and 50 rank the
smaller spend magnitude first, because the ranking takes the largest signed
sums, so the list is not descending by spend magnitude. -/
theorem c5_counterexample :
    (getSpendingSummary ⟨true, true, []⟩
        ⟨false, true, [⟨⟨2026, 1, 10⟩, some 30, some ("Debit"), "Amazon"⟩,
          ⟨⟨2026, 1, 11⟩, some 50, some ("Debit"), "Walmart"⟩]⟩
        ⟨2026, 1, 15⟩).top_merchants_by_spend
      = [(("Amazon"), (-30 : ℚ)), (("Walmart"), (-50 : ℚ))]
    ∧ |(-30 : ℚ)| < |(-50 : ℚ)| :=
  ⟨by with_unfolding_all decide, by norm_num⟩

/-- Claim C5 (amended): for every input the top-merchant list is sorted
descending by the signed group sum, has length at most five, and has no
duplicate merchant keys. -/
theorem c5_top_merchants (b : BankTable) (c : CCTable) (now : Date) :
    List.Sorted spendDesc (getSpendingSummary b c now).top_merchants_by_spend
    ∧ (getSpendingSummary b c now).top_merchants_by_spend.length ≤ 5
    ∧ ((getSpendingSummary b c now).top_merchants_by_spend.map Prod.fst).Nodup := by
  rcases getSummary_cases b c now with h | h <;> rw [h]
  · exact ⟨List.sorted_nil, Nat.zero_le 5, List.nodup_nil⟩
  · refine ⟨?_, ?_, ?_⟩
    · show List.Sorted spendDesc ((List.insertionSort spendDesc
        (groupbySum (topPairs (normalizeBankTable b) (normalizeCCTable c)))).take 5)
      exact (List.sorted_insertionSort spendDesc _).sublist (List.take_sublist 5 _)
    · show ((List.insertionSort spendDesc
        (groupbySum (topPairs (normalizeBankTable b) (normalizeCCTable c)))).take 5).length ≤ 5
      exact List.length_take_le 5 _
    · show (((List.insertionSort spendDesc
        (groupbySum (topPairs (normalizeBankTable b) (normalizeCCTable c)))).take 5).map
          Prod.fst).Nodup
      have hnd : ((List.insertionSort spendDesc
          (groupbySum (topPairs (normalizeBankTable b) (normalizeCCTable c)))).map
            Prod.fst).Nodup :=
        ((List.perm_insertionSort spendDesc _).map Prod.fst).nodup_iff.mpr
          (groupbySum_keys_nodup _)
      rw [List.map_take]
      exact hnd.sublist (List.take_sublist 5 _)

/-- Claim C6: interest inference is monotone under appending posts, and the
returned tag list is deduplicated and sorted. -/
theorem c6_interest_monotonicity (A B : List (Option String)) :
    (∀ x, x ∈ getUserInterests A → x ∈ getUserInterests (A ++ B))
    ∧ (getUserInterests A).Nodup
    ∧ List.Sorted strLeRel (getUserInterests A) := by
  refine ⟨?_, ?_, ?_⟩
  · intro x hx
    have hx2 : x ∈ collectTags A :=
      List.mem_dedup.mp ((List.perm_insertionSort strLeRel (collectTags A).dedup).mem_iff.mp hx)
    have hx3 : x ∈ collectTags (A ++ B) := by
      rw [collectTags_append]
      exact List.mem_append_left _ hx2
    exact (List.perm_insertionSort strLeRel _).mem_iff.mpr (List.mem_dedup.mpr hx3)
  · exact ((List.perm_insertionSort strLeRel _).nodup_iff).mpr (List.nodup_dedup _)
  · exact List.sorted_insertionSort strLeRel _

/-- Claim C6 witness: the travel tag inferred from one post persists after a
second post set is appended. -/
theorem c6_witness :
    ("travel") ∈ getUserInterests [some ("I love travel")]
    ∧ ("travel") ∈ getUserInterests ([some ("I love travel")] ++ [some ("tech gadgets")]) :=
  ⟨by decide,
    (c6_interest_monotonicity [some ("I love travel")] [some ("tech gadgets")]).1
      ("travel") (by decide)⟩

/-- Claim C7: the month-over-month change equals the guarded percentage
formula, and is exactly zero whenever the last-month spend is zero. -/
theorem c7_mom_guard (b : BankTable) (c : CCTable) (now : Date) :
    (getSpendingSummary b c now).month_over_month_change
      = (if (getSpendingSummary b c now).last_month_spend ≠ 0
          then ((getSpendingSummary b c now).current_month_spend
              - (getSpendingSummary b c now).last_month_spend)
            / (getSpendingSummary b c now).last_month_spend * 100
          else 0)
    ∧ ((getSpendingSummary b c now).last_month_spend = 0 →
        (getSpendingSummary b c now).month_over_month_change = 0) := by
  have hmain : (getSpendingSummary b c now).month_over_month_change
      = (if (getSpendingSummary b c now).last_month_spend ≠ 0
          then ((getSpendingSummary b c now).current_month_spend
              - (getSpendingSummary b c now).last_month_spend)
            / (getSpendingSummary b c now).last_month_spend * 100
          else 0) := by
    rcases getSummary_cases b c now with h | h <;> rw [h]
    · show (0 : ℚ) = if (0 : ℚ) ≠ 0 then ((0 : ℚ) - 0) / 0 * 100 else 0
      rw [if_neg (by norm_num)]
    · rfl
  exact ⟨hmain, fun h0 => by rw [hmain, if_neg (not_not_intro h0)]⟩

/-- Claim C7 witness: on empty inputs the last-month spend is zero and the
change is zero. -/
theorem c7_witness :
    (getSpendingSummary ⟨true, true, []⟩ ⟨false, true, []⟩ ⟨2026, 2, 10⟩).last_month_spend = 0
    ∧ (getSpendingSummary ⟨true, true, []⟩ ⟨false, true, []⟩
        ⟨2026, 2, 10⟩).month_over_month_change = 0 :=
  ⟨rfl, (c7_mom_guard ⟨true, true, []⟩ ⟨false, true, []⟩ ⟨2026, 2, 10⟩).2 rfl⟩

/-- Claim C8 counterexample: on July 31 the code looks 30 days back, which
is July 1, so the last-month key equals the current month and is not the
prior calendar month key; on March 2 the step lands in January, two months
back, again missing the prior calendar month. -/
theorem c8_counterexample :
    monthKey (subDays 30 ⟨2026, 7, 31⟩) = "2026-07"
    ∧ monthKey ⟨2026, 7, 31⟩ = "2026-07"
    ∧ priorCalendarMonthKey ⟨2026, 7, 31⟩ = "2026-06"
    ∧ ("2026-07" : String) ≠ "2026-06"
    ∧ monthKey (subDays 30 ⟨2026, 3, 2⟩) = "2026-01"
    ∧ priorCalendarMonthKey ⟨2026, 3, 2⟩ = "2026-02"
    ∧ ("2026-01" : String) ≠ "2026-02" :=
  ⟨by decide, by decide, by decide, by decide, by decide, by decide, by decide⟩

/-- Claim C8 (amended): the summary looks current and last month spend up in
monthly_spending at the current month key and at the key of the date 30
days earlier, a missing key giving zero; the 30-day step lands in the prior
calendar month exactly when the day lies between 31 minus the prior month
length and 30 (an equivalence), and on day 31 the last-month key equals the
current month key. -/
theorem c8_month_lookup (b : BankTable) (c : CCTable) (now : Date) (y m d : Nat) :
    (getSpendingSummary b c now).current_month_spend
      = lookupD (getSpendingSummary b c now).monthly_spending (monthKey now)
    ∧ (getSpendingSummary b c now).last_month_spend
      = lookupD (getSpendingSummary b c now).monthly_spending (monthKey (subDays 30 now))
    ∧ (1 ≤ m → 1 ≤ d →
        ((31 - prevMonthLen y m ≤ d ∧ d ≤ 30) →
          monthKey (subDays 30 ⟨y, m, d⟩) = priorCalendarMonthKey ⟨y, m, d⟩)
        ∧ ((((subDays 30 ⟨y, m, d⟩).year, (subDays 30 ⟨y, m, d⟩).month)
              = priorYearMonth ⟨y, m, d⟩)
            ↔ (31 - prevMonthLen y m ≤ d ∧ d ≤ 30))
        ∧ (d = 31 → monthKey (subDays 30 ⟨y, m, d⟩) = monthKey ⟨y, m, d⟩)) := by
  refine ⟨?_, ?_, fun hm hd1 =>
    ⟨fun hr => subDays30_prior_month y m d hm hd1 hr.2 hr.1,
      subDays30_pair_iff y m d hm hd1,
      fun h31 => by rw [h31]; exact subDays30_day31 y m⟩⟩
  · rcases getSummary_cases b c now with h | h <;> rw [h] <;> rfl
  · rcases getSummary_cases b c now with h | h <;> rw [h] <;> rfl

/-- Claim C8 witness: the prior-month equation holds on August 15, through
the in-range implication of the theorem. -/
theorem c8_witness :
    (1 ≤ 8 ∧ 1 ≤ 15 ∧ 31 - prevMonthLen 2026 8 ≤ 15 ∧ 15 ≤ 30)
    ∧ monthKey (subDays 30 ⟨2026, 8, 15⟩) = priorCalendarMonthKey ⟨2026, 8, 15⟩ :=
  ⟨by decide,
    ((c8_month_lookup ⟨true, true, []⟩ ⟨false, true, []⟩ ⟨2026, 8, 15⟩ 2026 8 15).2.2
      (by decide) (by decide)).1 ⟨by decide, by decide⟩⟩

/-- Claim C9: any internal error is swallowed into the fully populated
all-zero summary with empty maps and no max category, and empty source
tables likewise give the complete zero summary rather than partial data. -/
theorem c9_fault_policy (b : BankTable) (c : CCTable) (now : Date) :
    (∀ e, generateSpendingSummary (normalizeBankTable b) (normalizeCCTable c) now
        = Except.error e → getSpendingSummary b c now = zeroSummary)
    ∧ (zeroSummary.total_spend = 0 ∧ zeroSummary.bank_spend = 0
        ∧ zeroSummary.credit_card_spend = 0 ∧ zeroSummary.spending_by_category = []
        ∧ zeroSummary.monthly_spending = [] ∧ zeroSummary.current_month_spend = 0
        ∧ zeroSummary.last_month_spend = 0 ∧ zeroSummary.month_over_month_change = 0
        ∧ zeroSummary.max_spending_category = none
        ∧ zeroSummary.average_transaction_amount = some 0
        ∧ zeroSummary.top_merchants_by_spend = [])
    ∧ getSpendingSummary ⟨true, true, []⟩ ⟨false, true, []⟩ now = zeroSummary :=
  ⟨fun e he => getSummary_of_error b c now e he,
    ⟨rfl, rfl, rfl, rfl, rfl, rfl, rfl, rfl, rfl, rfl, rfl⟩, rfl⟩

/-- Claim C9 witness: a bank table whose amount column has the dollar name
makes the generator raise the modelled KeyError, and the entry point still
returns the zero summary. -/
theorem c9_witness :
    generateSpendingSummary
        (normalizeBankTable ⟨false, true, [⟨⟨2026, 3, 5⟩, some 10, some ("Debit"), "Starbucks"⟩]⟩)
        (normalizeCCTable ⟨false, true, []⟩) ⟨2026, 3, 10⟩
      = Except.error ("KeyError on the bank amount column")
    ∧ getSpendingSummary ⟨false, true, [⟨⟨2026, 3, 5⟩, some 10, some ("Debit"), "Starbucks"⟩]⟩
        ⟨false, true, []⟩ ⟨2026, 3, 10⟩ = zeroSummary :=
  ⟨by with_unfolding_all rfl,
    (c9_fault_policy ⟨false, true, [⟨⟨2026, 3, 5⟩, some 10, some ("Debit"), "Starbucks"⟩]⟩
      ⟨false, true, []⟩ ⟨2026, 3, 10⟩).1 ("KeyError on the bank amount column")
      (by with_unfolding_all rfl)⟩

/-- Claim C10: bank_spend keeps exactly the rows typed Debit with a capital
letter, while normalization negates any row whose lower-cased type contains
debit; a lowercase debit row is negated yet excluded from bank_spend, and a
row not typed Debit contributes a literal zero to the unified amounts while
still counting in the mean denominator. -/
theorem c10_debit_case_sensitivity (pre post : List BankRow) (r rB : BankRow)
    (hr : r.ttype = some ("debit")) (hB : rB.ttype ≠ some ("Debit")) :
    bankSpendRows (pre ++ r :: post) = bankSpendRows (pre ++ post)
    ∧ (normalizeBankRow true r).amount = r.amount.map (fun a => -a)
    ∧ unifiedBankAmount rB = some 0
    ∧ (meanVals (bankUnified ⟨true, true, pre ++ rB :: post⟩)).length
      = (meanVals (bankUnified ⟨true, true, pre ++ post⟩)).length + 1 := by
  have hdrop : (r.ttype == some ("Debit")) = false := by
    rw [hr]
    decide
  have hBfalse : (rB.ttype == some ("Debit")) = false :=
    beq_eq_false_iff_ne.mpr hB
  have hmid : unifiedBankAmount rB = some 0 := by
    unfold unifiedBankAmount
    rw [if_neg (by simp [hBfalse])]
  refine ⟨?_, ?_, hmid, ?_⟩
  · unfold bankSpendRows
    rw [List.filter_append, List.filter_append, List.filter_cons]
    simp [hdrop]
  · have hcond : (true && lowerContainsDebit r.ttype) = true := by
      rw [hr]
      decide
    unfold normalizeBankRow
    rw [if_pos hcond]
  · show ((bankUnified ⟨true, true, pre ++ rB :: post⟩).filterMap (fun u => u.amount)).length
      = ((bankUnified ⟨true, true, pre ++ post⟩).filterMap (fun u => u.amount)).length + 1
    unfold bankUnified
    simp only [List.map_append, List.map_cons, List.filterMap_append, List.filterMap_cons,
      List.length_append, List.length_cons, hmid]
    omega

/-- Claim C10 witness: a lowercase debit row and a Credit row realize the
hypotheses. -/
theorem c10_witness :
    ((⟨⟨2026, 4, 1⟩, some 20, some ("debit"), "Shop"⟩ : BankRow).ttype = some ("debit"))
    ∧ ((⟨⟨2026, 4, 2⟩, some 5, some ("Credit"), "Shop2"⟩ : BankRow).ttype ≠ some ("Debit"))
    ∧ bankSpendRows ([] ++ (⟨⟨2026, 4, 1⟩, some 20, some ("debit"), "Shop"⟩ : BankRow) :: [])
      = bankSpendRows ([] ++ []) :=
  ⟨rfl, by decide,
    (c10_debit_case_sensitivity [] [] ⟨⟨2026, 4, 1⟩, some 20, some ("debit"), "Shop"⟩
      ⟨⟨2026, 4, 2⟩, some 5, some ("Credit"), "Shop2"⟩ rfl (by decide)).1⟩

end DataExtractor
